import Mathlib

/-!
Verification of `consulta.py` (class `CNPJConsulta`): a batch CNPJ-lookup
pipeline that reads a `cnpj` column from a CSV, fetches one JSON record per
identifier over HTTP, flattens the records into a growing table
(`pd.json_normalize` + `pd.concat`), post-processes the table (drop `qsa`,
expand `cnaes_secundarios`, rename digit-prefixed columns) and writes a CSV.

The embedding models the pandas DataFrame as an ordered list of column names
together with one association list (flattened record) per row; a cell is the
first value bound to the column name in the row's association list, and a
missing binding is the NaN/null cell.  File reading and the HTTP fetch are
oracles (`Except Unit DataFrame`, `String → Except Unit Json`).  Python
exceptions are modelled with the error taxonomy the specification assigns to
them (`InputError`, `UpstreamError`, `SchemaError`, plus the `TypeError` /
`AttributeError` slips reachable in the source).
-/

/-- A JSON value, as produced by `response.json()`. -/
inductive Json where
  | null : Json
  | bool (b : Bool) : Json
  | num (n : Int) : Json
  | str (s : String) : Json
  | arr (xs : List Json) : Json
  | obj (kvs : List (String × Json)) : Json
deriving Repr

/-- Is this JSON value an object (a Python `dict`)? -/
def Json.isObj : Json → Bool
  | .obj _ => true
  | _ => false

/-- A pandas DataFrame: ordered column labels, and one flattened record per
row.  A row binds a subset of the column labels to values; a label a row does
not bind is that row's NaN cell. -/
structure DataFrame where
  columns : List String
  rows : List (List (String × Json))
deriving Repr

/-- The serialized output of `to_csv(index=False)`: a header line (the column
labels in table order) and the rows in table order. -/
structure Csv where
  header : List String
  linhas : List (List (String × Json))
deriving Repr

/-- Error kinds of the pipeline, following the specification's taxonomy:
`inputError` for a missing/unreadable input file or missing `cnpj` column,
`upstreamError` for a network or JSON-decode failure, `schemaError` for a
column missing during post-processing, plus `typeError` (string concatenation
with a non-string identifier in `consulta_cnpj`) and `attributeError`
(`None.drop` when the accumulating table was never initialised). -/
inductive Err where
  | inputError : Err
  | upstreamError : Err
  | typeError : Err
  | attributeError : Err
  | schemaError (k : String) : Err
  | notImplementedError : Err
deriving Repr, DecidableEq

/-- Insert the labels of `ks` into `acc`, keeping first-seen order and
skipping labels already present.  This is the outer-join column union used by
`pd.concat(..., ignore_index=True)` with the default `sort=False`. -/
def unionCols (acc : List String) (ks : List String) : List String :=
  ks.foldl (fun a k => if k ∈ a then a else a ++ [k]) acc

/-- Build a DataFrame from a list of flattened records: the columns are the
union, in first-seen order, of the keys of the rows (a pandas `DataFrame`
built from a list of dicts). -/
def mkDF (rows : List (List (String × Json))) : DataFrame :=
  ⟨rows.foldl (fun a r => unionCols a (r.map Prod.fst)) [], rows⟩

mutual
/-- The recursive part of pandas' JSON flattening: a nested object is
flattened with dot-joined key paths below the prefix `pre`; any non-object
value (scalars and lists alike) is stored as-is under `pre`. -/
def flattenVal (pre : String) : Json → List (String × Json)
  | .obj kvs => flattenKvs pre kvs
  | v => [(pre, v)]

/-- Flatten the fields of an object below the key prefix `pre`, in document
order. -/
def flattenKvs (pre : String) : List (String × Json) → List (String × Json)
  | [] => []
  | (k, v) :: rest => flattenVal (pre ++ "." ++ k) v ++ flattenKvs pre rest
end

/-- Flatten one JSON object into a single row, as `pd.json_normalize` does for
one record: keys with non-object values are kept, in document order, then each
object-valued key is recursively flattened into dotted paths. -/
def normalizeObjPairs (kvs : List (String × Json)) : List (String × Json) :=
  kvs.filter (fun kv => !kv.2.isObj) ++
    (kvs.map (fun kv => if kv.2.isObj then flattenVal kv.1 kv.2 else [])).flatten

/-- The flattened row of one fetched record; non-objects contribute no
bindings (they are only reachable through the list branch of
`json_normalize`). -/
def rowOfJson : Json → List (String × Json)
  | .obj kvs => normalizeObjPairs kvs
  | _ => []

/-- `pd.json_normalize(data)` on one fetched record: an object becomes a
one-row table, a list becomes one row per element, and any other value raises
(pandas `NotImplementedError`). -/
def json_normalize_record : Json → Except Err DataFrame
  | .obj kvs => .ok (mkDF [normalizeObjPairs kvs])
  | .arr xs => .ok (mkDF (xs.map rowOfJson))
  | _ => .error .notImplementedError

/-- One cell of the `cnaes_secundarios` column expanded into a flattened row.
Modelled from the spec: the source applies `pd.json_normalize` to the column
(a Series whose cells are lists of objects); the exact column naming this
external library call produces is not in the repository, so it follows the
spec's dotted/indexed flattening rule (section 4.4 and the section 8
scenario): element `i` of the cell's list contributes columns `i` (scalar
element) or `i.<path>` (object element). -/
def expandeLista (i : Nat) : List Json → List (String × Json)
  | [] => []
  | e :: rest => flattenVal (Nat.repr i) e ++ expandeLista (i + 1) rest

/-- Expansion of one cell of the `cnaes_secundarios` column (see
`expandeLista`); a NaN cell or a non-list, non-object cell contributes an
empty row. -/
def expandCell : Option Json → List (String × Json)
  | some (.arr xs) => expandeLista 0 xs
  | some (.obj kvs) => normalizeObjPairs kvs
  | _ => []

/-- `pd.json_normalize` applied to a column: one expanded row per cell, with
the columns being the first-seen union of the rows' keys. -/
def normalize_series (cells : List (Option Json)) : DataFrame :=
  mkDF (cells.map expandCell)

/-- `pd.concat([a, b], ignore_index=True)`: stack the rows; the columns are
the outer-join union in first-seen order. -/
def concatRows (a b : DataFrame) : DataFrame :=
  ⟨unionCols a.columns b.columns, a.rows ++ b.rows⟩

/-- `pd.concat([a, b], axis=1)` for two tables with the same default row
index: columns are juxtaposed and each row is merged with its counterpart. -/
def concatAxis1 (a b : DataFrame) : DataFrame :=
  ⟨a.columns ++ b.columns, List.zipWith (· ++ ·) a.rows b.rows⟩

/-- `df.drop(columns=[c])`: remove every column labelled `c`; `none` models
the `KeyError` pandas raises when the label is absent. -/
def dropCol (df : DataFrame) (c : String) : Option DataFrame :=
  if c ∈ df.columns then
    some ⟨df.columns.filter (fun x => x != c),
          df.rows.map (fun r => r.filter (fun kv => kv.1 != c))⟩
  else none

/-- `df[c]`: the column `c` as the list of its cells in row order; `none`
models the `KeyError` when the label is absent. -/
def getCol (df : DataFrame) (c : String) : Option (List (Option Json)) :=
  if c ∈ df.columns then some (df.rows.map (fun r => r.lookup c)) else none

/-- `df.rename(columns={old: new})`: replace the label everywhere it occurs,
in the header and in the rows' bindings, keeping positions. -/
def renameCol (df : DataFrame) (old new : String) : DataFrame :=
  ⟨df.columns.map (fun c => if c = old then new else c),
   df.rows.map (fun r => r.map (fun kv => if kv.1 = old then (new, kv.2) else kv))⟩

/-- Does `re.match(r"^\d+", str(column))` succeed, i.e. does the label start
with a digit? -/
def digitStart (s : String) : Bool :=
  match s.data with
  | [] => false
  | c :: _ => c.isDigit

/-- The literal prefix prepended by step 3 of `normalizar_dados`. -/
def cnaePref : String := "cnae_secundario_"

/-- The rename loop of `normalizar_dados`: iterate over a snapshot of the
column labels taken before the loop and, for each label that starts with a
digit, rename it to `cnae_secundario_<label>`. -/
def renameDigits (df : DataFrame) : DataFrame :=
  df.columns.foldl
    (fun acc c => if digitStart c then renameCol acc c (cnaePref ++ c) else acc) df

namespace CNPJConsulta

/-- `URI`: the base URL of the lookup service. -/
def URI : String := "https://minhareceita.org/"

/-- `_ler_csv`: read the input table and return the `cnpj` column as a list
of its cell values in row order (`df["cnpj"].tolist()`).  The input oracle is
the outcome of `pd.read_csv`; per the specification's taxonomy, a
missing/unreadable file and a missing `cnpj` column are both `InputError`. -/
def ler_csv (input : Except Unit DataFrame) : Except Err (List (Option Json)) :=
  match input with
  | .error _ => .error .inputError
  | .ok df =>
    match getCol df "cnpj" with
    | none => .error .inputError
    | some col => .ok col

/-- `consulta_cnpj`: build `URI + cnpj` and fetch it.  Concatenation requires
the cell to hold a string (`TypeError` otherwise, in particular for the NaN
cell or an identifier the CSV reader parsed as a number); a network or
JSON-decode failure of the oracle is an `UpstreamError`. -/
def consulta_cnpj (fetch : String → Except Unit Json) (cell : Option Json) :
    Except Err Json :=
  match cell with
  | some (.str s) =>
    match fetch (URI ++ s) with
    | .ok j => .ok j
    | .error _ => .error .upstreamError
  | _ => .error .typeError

/-- The loop body of `processar_consultas`, threading the `result_df` field
(`none` until the first record): fetch, `pd.json_normalize`, and either
initialise the table or `pd.concat(..., ignore_index=True)`. -/
def processar_aux (fetch : String → Except Unit Json) :
    Option DataFrame → List (Option Json) → Except Err (Option DataFrame)
  | st, [] => .ok st
  | st, cell :: rest => do
    let data ← consulta_cnpj fetch cell
    let df ← json_normalize_record data
    processar_aux fetch
      (some (match st with | none => df | some r => concatRows r df)) rest

/-- `processar_consultas`: run the fetch-and-accumulate loop over the
identifier list starting from an unset `result_df`. -/
def processar_consultas (fetch : String → Except Unit Json)
    (cnpjs : List (Option Json)) : Except Err (Option DataFrame) :=
  processar_aux fetch none cnpjs

/-- `normalizar_dados` up to (but not including) the rename loop: drop `qsa`
(`AttributeError` if `result_df` is still `None`, `SchemaError` if the column
is absent), expand the `cnaes_secundarios` column with `pd.json_normalize`,
juxtapose the expansion (`pd.concat(..., axis=1)`), and drop the original
`cnaes_secundarios` column. -/
def normalizar_pre (st : Option DataFrame) : Except Err DataFrame :=
  match st with
  | none => .error .attributeError
  | some df =>
    match dropCol df "qsa" with
    | none => .error (.schemaError "qsa")
    | some d1 =>
      match getCol d1 "cnaes_secundarios" with
      | none => .error (.schemaError "cnaes_secundarios")
      | some col =>
        match dropCol (concatAxis1 d1 (normalize_series col)) "cnaes_secundarios" with
        | none => .error (.schemaError "cnaes_secundarios")
        | some d3 => .ok d3

/-- `normalizar_dados`: the three structural steps followed by the rename
loop. -/
def normalizar_dados (st : Option DataFrame) : Except Err DataFrame :=
  (normalizar_pre st).map renameDigits

/-- `salvar_resultado`: serialize the table (`to_csv(index=False)`): header
from the column labels in order, then the rows in order. -/
def salvar_resultado (df : DataFrame) : Csv :=
  ⟨df.columns, df.rows⟩

/-- `executar` together with `__init__`: load the identifiers (construction
happens first), run the fetch loop, post-process, and only then write.  The
result is the written CSV; an error means the run aborted with that error and
nothing was written. -/
def executar (input : Except Unit DataFrame) (fetch : String → Except Unit Json) :
    Except Err Csv := do
  let cnpjs ← ler_csv input
  let st ← processar_consultas fetch cnpjs
  let df ← normalizar_dados st
  pure (salvar_resultado df)

end CNPJConsulta

open CNPJConsulta

/-- The pre-writer part of `executar`: construction (`_ler_csv`), the fetch
loop and the post-processing, but not `salvar_resultado`. -/
def fases_pre_escrita (input : Except Unit DataFrame)
    (fetch : String → Except Unit Json) : Except Err DataFrame := do
  let cnpjs ← ler_csv input
  let st ← processar_consultas fetch cnpjs
  normalizar_dados st

/-- Does this cell hold a JSON string value? -/
def isStrCell : Option Json → Bool
  | some (.str _) => true
  | _ => false

/-- Is this input oracle outcome a bad input in the sense of the spec: a
missing/unreadable file, or a table without a `cnpj` column? -/
def entradaRuim : Except Unit DataFrame → Prop
  | .error _ => True
  | .ok df => "cnpj" ∉ df.columns

/-- The mocked upstream record of the spec's section 8 scenario. -/
def registroCenario : Json :=
  .obj [("qsa", .arr [.obj [("nome", .str "A")]]),
        ("cnaes_secundarios",
          .arr [.obj [("codigo", .num 123), ("descricao", .str "x")]]),
        ("razao_social", .str "ACME")]

/-- The parsed input table of the scenario: one row, `cnpj` column holding
the string `11222333000181`. -/
def entradaCenario : Except Unit DataFrame :=
  .ok ⟨["cnpj"], [[("cnpj", Json.str "11222333000181")]]⟩

/-- The mocked HTTP service of the scenario. -/
def servicoCenario : String → Except Unit Json := fun u =>
  if u = "https://minhareceita.org/11222333000181" then .ok registroCenario
  else .error ()

/-- The output the scenario produces. -/
def saidaCenario : Csv :=
  ⟨["razao_social", "cnae_secundario_0.codigo", "cnae_secundario_0.descricao"],
   [[("razao_social", Json.str "ACME"),
     ("cnae_secundario_0.codigo", Json.num 123),
     ("cnae_secundario_0.descricao", Json.str "x")]]⟩

/-- An input table whose `cnpj` column holds a number, as `pd.read_csv`
produces for a purely numeric column. -/
def entradaNumerica : Except Unit DataFrame :=
  .ok ⟨["cnpj"], [[("cnpj", Json.num 11222333000181)]]⟩

/-- A fetch oracle that always fails. -/
def servicoNulo : String → Except Unit Json := fun _ => .error ()

/-- C3: for the single identifier `11222333000181` whose fetched record is
`{"qsa": [...], "cnaes_secundarios": [{"codigo": 123, "descricao": "x"}],
"razao_social": "ACME"}`, `executar` produces a table whose columns include
`razao_social`, `cnae_secundario_0.codigo` and `cnae_secundario_0.descricao`,
and include neither `qsa` nor `cnaes_secundarios`. -/
theorem executar_cenario_unitario :
    executar entradaCenario servicoCenario = .ok saidaCenario ∧
    "razao_social" ∈ saidaCenario.header ∧
    "cnae_secundario_0.codigo" ∈ saidaCenario.header ∧
    "cnae_secundario_0.descricao" ∈ saidaCenario.header ∧
    "qsa" ∉ saidaCenario.header ∧
    "cnaes_secundarios" ∉ saidaCenario.header :=
  ⟨rfl, by decide, by decide, by decide, by decide, by decide⟩

/-- C7 counterexample: on an input table whose `cnpj` column was parsed as a
number, the loader returns that number unchanged — the returned identifier is
not a string value, refuting "every returned identifier is a string". -/
theorem ler_csv_devolve_numero :
    ler_csv entradaNumerica = .ok [some (Json.num 11222333000181)] ∧
    isStrCell (some (Json.num 11222333000181)) = false :=
  ⟨rfl, rfl⟩

/-- C7 (amended): for every input table with a `cnpj` column, the loader
returns exactly the `cnpj` column's cell values in row order — order
preserved, nothing coerced; the values are strings only when the table
already holds strings. -/
theorem ler_csv_preserva_celulas (df : DataFrame) (h : "cnpj" ∈ df.columns) :
    ler_csv (.ok df) = .ok (df.rows.map (fun r => r.lookup "cnpj")) := by
  simp [ler_csv, getCol, h]

theorem ler_csv_preserva_celulas_aplicado :
    "cnpj" ∈ (["cnpj"] : List String) ∧
      ler_csv (.ok ⟨["cnpj"], [[("cnpj", Json.str "11222333000181")]]⟩) =
        .ok [some (Json.str "11222333000181")] :=
  ⟨by decide,
   (ler_csv_preserva_celulas ⟨["cnpj"], [[("cnpj", Json.str "11222333000181")]]⟩
      (by decide)).trans rfl⟩

/-- C8: for every missing/unreadable input and every input table without a
`cnpj` column, the run aborts with `InputError`; the conclusion holds for
every fetch oracle, i.e. the outcome is decided at construction, before any
HTTP request can depend on it. -/
theorem entrada_ruim_aborta (input : Except Unit DataFrame)
    (h : entradaRuim input) (fetch : String → Except Unit Json) :
    executar input fetch = .error .inputError := by
  match input with
  | .error _ => rfl
  | .ok df =>
    simp only [entradaRuim] at h
    simp [executar, ler_csv, getCol, h, Bind.bind, Except.bind]

theorem entrada_ruim_aborta_aplicado :
    entradaRuim (.error ()) ∧
      executar (.error ()) servicoNulo = .error .inputError :=
  ⟨trivial, entrada_ruim_aborta (.error ()) trivial servicoNulo⟩

/-- C9: an error in any pre-writer phase (loading, fetching/accumulating, or
post-processing) propagates unchanged to `executar`'s outcome, with nothing
written; and when `executar` does produce an output, it is exactly the
serialization of a table the pre-writer phases produced successfully — the
writer runs only after both phases complete. -/
theorem escritor_por_ultimo (input : Except Unit DataFrame)
    (fetch : String → Except Unit Json) :
    (∀ e : Err, fases_pre_escrita input fetch = .error e →
      executar input fetch = .error e) ∧
    (∀ out : Csv, executar input fetch = .ok out →
      ∃ df : DataFrame, fases_pre_escrita input fetch = .ok df ∧
        out = salvar_resultado df) := by
  constructor
  · intro e he
    cases h1 : ler_csv input with
    | error e1 =>
      simp only [fases_pre_escrita, h1, Bind.bind, Except.bind,
        Except.error.injEq] at he
      subst he
      simp [executar, h1, Bind.bind, Except.bind]
    | ok cnpjs =>
      cases h2 : processar_consultas fetch cnpjs with
      | error e2 =>
        simp only [fases_pre_escrita, h1, h2, Bind.bind, Except.bind,
          Except.error.injEq] at he
        subst he
        simp [executar, h1, h2, Bind.bind, Except.bind]
      | ok st =>
        simp only [fases_pre_escrita, h1, h2, Bind.bind, Except.bind] at he
        simp [executar, h1, h2, Bind.bind, Except.bind, he]
  · intro out hout
    cases h1 : ler_csv input with
    | error e1 => simp [executar, h1, Bind.bind, Except.bind] at hout
    | ok cnpjs =>
      cases h2 : processar_consultas fetch cnpjs with
      | error e2 => simp [executar, h1, h2, Bind.bind, Except.bind] at hout
      | ok st =>
        cases h3 : normalizar_dados st with
        | error e3 => simp [executar, h1, h2, h3, Bind.bind, Except.bind] at hout
        | ok df =>
          refine ⟨df, ?_, ?_⟩
          · simp [fases_pre_escrita, h1, h2, h3, Bind.bind, Except.bind]
          · simp [executar, h1, h2, h3, Bind.bind, Except.bind, pure,
              Except.pure] at hout
            exact hout.symm

theorem escritor_por_ultimo_aplicado :
    executar (.error ()) servicoNulo = .error .inputError :=
  (escritor_por_ultimo (.error ()) servicoNulo).1 .inputError rfl

/-- C10: when the input has a `cnpj` column but no rows, the fetch loop never
initialises `result_df`, post-processing hits the unset table (the `.drop`
attribute access on `None`) and the run aborts with nothing written, instead
of producing an empty CSV. -/
theorem lista_vazia_aborta (input : Except Unit DataFrame)
    (fetch : String → Except Unit Json) (h : ler_csv input = .ok []) :
    executar input fetch = .error .attributeError := by
  simp [executar, h, Bind.bind, Except.bind, processar_consultas, processar_aux,
    normalizar_dados, normalizar_pre, Except.map, pure, Except.pure]

theorem lista_vazia_aborta_aplicado :
    ler_csv (.ok ⟨["cnpj"], []⟩) = .ok [] ∧
      executar (.ok ⟨["cnpj"], []⟩) servicoNulo = .error .attributeError :=
  ⟨rfl, lista_vazia_aborta (.ok ⟨["cnpj"], []⟩) servicoNulo rfl⟩

/-! ### Auxiliary lemmas on labels, column unions and association lists -/

theorem digitStart_append (a b : String) (h : a.data ≠ []) :
    digitStart (a ++ b) = digitStart a := by
  unfold digitStart
  rw [String.data_append]
  match hd : a.data with
  | [] => exact absurd hd h
  | c :: cs => simp

theorem digitStart_cnaePref_append (s : String) :
    digitStart (cnaePref ++ s) = false := by
  rw [digitStart_append _ _ (by decide)]
  decide

theorem digitChar_isDigit : ∀ k < 10, (Nat.digitChar k).isDigit = true := by
  decide

theorem toDigitsCore_shape (fuel n : Nat) (ds : List Char) :
    ∃ l, Nat.toDigitsCore 10 fuel n ds = l ++ ds ∧ (fuel ≠ 0 → l ≠ []) ∧
      ∀ c ∈ l, c.isDigit = true := by
  induction fuel generalizing n ds with
  | zero => exact ⟨[], rfl, fun h => absurd rfl h, by simp⟩
  | succ fuel ih =>
    have hdig : (Nat.digitChar (n % 10)).isDigit = true :=
      digitChar_isDigit _ (Nat.mod_lt _ (by omega))
    by_cases h10 : n / 10 = 0
    · refine ⟨[Nat.digitChar (n % 10)], ?_, by simp, by simpa using hdig⟩
      simp [Nat.toDigitsCore, h10]
    · obtain ⟨l, hl, _, hdigs⟩ := ih (n / 10) (Nat.digitChar (n % 10) :: ds)
      refine ⟨l ++ [Nat.digitChar (n % 10)], ?_, by simp, ?_⟩
      · simp only [Nat.toDigitsCore, h10, if_false]
        rw [hl]
        simp
      · intro c hc
        rcases List.mem_append.mp hc with h | h
        · exact hdigs c h
        · simpa using (List.mem_singleton.mp h) ▸ hdig

theorem digitStart_repr (n : Nat) : digitStart (Nat.repr n) = true := by
  obtain ⟨l, hl, hne, hdigs⟩ := toDigitsCore_shape (n + 1) n []
  have hl' : Nat.toDigits 10 n = l := by simpa [Nat.toDigits] using hl
  have hrepr : (Nat.repr n).data = l := by
    show (Nat.toDigits 10 n).asString.data = l
    rw [hl']
    rfl
  unfold digitStart
  rw [hrepr]
  cases hm : l with
  | nil => exact absurd hm (hne (by omega))
  | cons c cs => exact hdigs c (by rw [hm]; simp)

theorem digitStart_repr_append (n : Nat) (s : String) :
    digitStart (Nat.repr n ++ s) = true := by
  have h : (Nat.repr n).data ≠ [] := by
    intro hd
    have hds := digitStart_repr n
    unfold digitStart at hds
    rw [hd] at hds
    exact absurd hds (by simp)
  rw [digitStart_append _ _ h]
  exact digitStart_repr n

theorem unionCols_nil (a : List String) : unionCols a [] = a := rfl

theorem unionCols_cons (a : List String) (k : String) (ks : List String) :
    unionCols a (k :: ks) = unionCols (if k ∈ a then a else a ++ [k]) ks := rfl

theorem unionCols_mem_left (a ks : List String) (c : String) (h : c ∈ a) :
    c ∈ unionCols a ks := by
  induction ks generalizing a with
  | nil => exact h
  | cons k ks ih =>
    rw [unionCols_cons]
    by_cases hk : k ∈ a
    · rw [if_pos hk]
      exact ih a h
    · rw [if_neg hk]
      exact ih _ (List.mem_append_left _ h)

theorem unionCols_mem_right (a ks : List String) (c : String) (h : c ∈ ks) :
    c ∈ unionCols a ks := by
  induction ks generalizing a with
  | nil => simp at h
  | cons k ks ih =>
    rw [unionCols_cons]
    rcases List.mem_cons.mp h with rfl | h
    · by_cases hk : c ∈ a
      · rw [if_pos hk]
        exact unionCols_mem_left a ks c hk
      · rw [if_neg hk]
        exact unionCols_mem_left _ ks c (by simp)
    · by_cases hk : k ∈ a
      · rw [if_pos hk]
        exact ih a h
      · rw [if_neg hk]
        exact ih _ h

theorem unionCols_mem_inv (a ks : List String) (c : String)
    (h : c ∈ unionCols a ks) : c ∈ a ∨ c ∈ ks := by
  induction ks generalizing a with
  | nil => exact Or.inl h
  | cons k ks ih =>
    rw [unionCols_cons] at h
    by_cases hk : k ∈ a
    · rw [if_pos hk] at h
      rcases ih a h with h | h
      · exact Or.inl h
      · exact Or.inr (List.mem_cons_of_mem _ h)
    · rw [if_neg hk] at h
      rcases ih _ h with h | h
      · rcases List.mem_append.mp h with h | h
        · exact Or.inl h
        · simp at h
          exact Or.inr (by simp [h])
      · exact Or.inr (List.mem_cons_of_mem _ h)

theorem unionCols_struct (a ks : List String) :
    ∃ t, unionCols a ks = a ++ t ∧ ∀ c ∈ t, c ∈ ks ∧ c ∉ a := by
  induction ks generalizing a with
  | nil => exact ⟨[], by simp [unionCols_nil], by simp⟩
  | cons k ks ih =>
    rw [unionCols_cons]
    by_cases hk : k ∈ a
    · rw [if_pos hk]
      obtain ⟨t, ht, hmem⟩ := ih a
      exact ⟨t, ht, fun c hc => ⟨List.mem_cons_of_mem _ (hmem c hc).1, (hmem c hc).2⟩⟩
    · rw [if_neg hk]
      obtain ⟨t, ht, hmem⟩ := ih (a ++ [k])
      refine ⟨k :: t, by rw [ht]; simp, ?_⟩
      intro c hc
      rcases List.mem_cons.mp hc with rfl | hc
      · exact ⟨by simp, hk⟩
      · refine ⟨List.mem_cons_of_mem _ (hmem c hc).1, fun hca => ?_⟩
        exact (hmem c hc).2 (List.mem_append_left _ hca)

theorem lookup_filter_ne {β : Type} (l : List (String × β)) (c k : String)
    (hk : k ≠ c) :
    (l.filter (fun kv => kv.1 != c)).lookup k = l.lookup k := by
  induction l with
  | nil => rfl
  | cons kv l ih =>
    obtain ⟨k1, v1⟩ := kv
    by_cases h1 : k1 = c
    · subst h1
      have hkk : (k == k1) = false := by simp [hk]
      simp [List.filter_cons, List.lookup_cons, hkk, ih]
    · have hb : (k1 != c) = true := by simp [h1]
      simp only [List.filter_cons, hb]
      simp only [if_true, List.lookup_cons]
      cases hkk : (k == k1) <;> simp [ih]

theorem lookup_none_of_not_key {β : Type} (l : List (String × β)) (k : String)
    (h : k ∉ l.map Prod.fst) : l.lookup k = none := by
  induction l with
  | nil => rfl
  | cons kv l ih =>
    obtain ⟨k1, v1⟩ := kv
    simp only [List.map_cons, List.mem_cons] at h
    push_neg at h
    have hkk : (k == k1) = false := by simp [h.1]
    simp [List.lookup_cons, hkk, ih h.2]

theorem lookup_mem {β : Type} (l : List (String × β)) (k : String) (v : β)
    (h : l.lookup k = some v) : (k, v) ∈ l := by
  induction l with
  | nil => simp [List.lookup] at h
  | cons kv l ih =>
    obtain ⟨k1, v1⟩ := kv
    rw [List.lookup_cons] at h
    by_cases hk : k = k1
    · subst hk
      have hkk : (k == k) = true := by simp
      rw [hkk] at h
      simp only [Option.some.injEq] at h
      subst h
      exact List.mem_cons_self _ _
    · have hkk : (k == k1) = false := by simp [hk]
      rw [hkk] at h
      exact List.mem_cons_of_mem _ (ih h)

/-! ### The rename loop as a pointwise map -/

/-- The net effect of the rename loop on one label. -/
def gRen (x : String) : String :=
  if digitStart x = true then cnaePref ++ x else x

theorem gRen_digitStart (x : String) : digitStart (gRen x) = false := by
  unfold gRen
  by_cases h : digitStart x = true
  · rw [if_pos h]
    exact digitStart_cnaePref_append x
  · rw [if_neg h]
    exact Bool.not_eq_true _ |>.mp h

theorem renameFold_eq (cs : List String) (df : DataFrame) :
    cs.foldl (fun acc c => if digitStart c then renameCol acc c (cnaePref ++ c) else acc) df =
    ⟨cs.foldl (fun l c => if digitStart c then
        l.map (fun x => if x = c then cnaePref ++ c else x) else l) df.columns,
     df.rows.map (fun r => cs.foldl (fun r c => if digitStart c then
        r.map (fun kv => if kv.1 = c then (cnaePref ++ c, kv.2) else kv) else r) r)⟩ := by
  induction cs generalizing df with
  | nil =>
    simp only [List.foldl_nil]
    cases df with
    | mk cols rows => simp
  | cons c cs ih =>
    simp only [List.foldl_cons]
    by_cases hd : digitStart c
    · rw [if_pos hd]
      rw [ih]
      simp only [renameCol, hd, if_pos]
      congr 1
      rw [List.map_map]
      rfl
    · rw [if_neg hd]
      rw [ih]
      simp only [hd]
      simp

theorem renomeia_cols_map (cs l : List String) :
    cs.foldl (fun l c => if digitStart c then
        l.map (fun x => if x = c then cnaePref ++ c else x) else l) l
      = l.map (fun x => if digitStart x = true ∧ x ∈ cs then cnaePref ++ x else x) := by
  induction cs generalizing l with
  | nil => simp
  | cons c cs ih =>
    simp only [List.foldl_cons]
    by_cases hd : digitStart c
    · rw [if_pos hd]
      rw [ih, List.map_map]
      apply List.map_congr_left
      intro x _
      simp only [Function.comp_apply]
      by_cases hx : x = c
      · subst hx
        rw [if_pos rfl]
        rw [if_neg, if_pos ⟨hd, List.mem_cons_self _ _⟩]
        rw [digitStart_cnaePref_append]
        simp
      · rw [if_neg hx]
        by_cases hdx : digitStart x = true
        · have : (x ∈ c :: cs) ↔ (x ∈ cs) := by simp [List.mem_cons, hx]
          by_cases hm : x ∈ cs
          · rw [if_pos ⟨hdx, hm⟩, if_pos ⟨hdx, this.mpr hm⟩]
          · rw [if_neg (by tauto), if_neg (by rw [this]; tauto)]
        · rw [if_neg (by tauto), if_neg (by tauto)]
    · rw [if_neg hd]
      rw [ih]
      apply List.map_congr_left
      intro x _
      by_cases hdx : digitStart x = true
      · have hxc : x ≠ c := fun h => hd (h ▸ hdx)
        have : (x ∈ c :: cs) ↔ (x ∈ cs) := by simp [List.mem_cons, hxc]
        by_cases hm : x ∈ cs
        · rw [if_pos ⟨hdx, hm⟩, if_pos ⟨hdx, this.mpr hm⟩]
        · rw [if_neg (by tauto), if_neg (by rw [this]; tauto)]
      · rw [if_neg (by tauto), if_neg (by tauto)]

theorem renomeia_fila_map (cs : List String) (r : List (String × Json)) :
    cs.foldl (fun r c => if digitStart c then
        r.map (fun kv => if kv.1 = c then (cnaePref ++ c, kv.2) else kv) else r) r
      = r.map (fun kv => if digitStart kv.1 = true ∧ kv.1 ∈ cs then
          (cnaePref ++ kv.1, kv.2) else kv) := by
  induction cs generalizing r with
  | nil => simp
  | cons c cs ih =>
    simp only [List.foldl_cons]
    by_cases hd : digitStart c
    · rw [if_pos hd]
      rw [ih, List.map_map]
      apply List.map_congr_left
      intro kv _
      simp only [Function.comp_apply]
      by_cases hx : kv.1 = c
      · rw [if_pos hx]
        rw [if_neg, if_pos ⟨hx ▸ hd, hx ▸ List.mem_cons_self _ _⟩, hx]
        rw [digitStart_cnaePref_append]
        simp
      · rw [if_neg hx]
        by_cases hdx : digitStart kv.1 = true
        · have : (kv.1 ∈ c :: cs) ↔ (kv.1 ∈ cs) := by simp [List.mem_cons, hx]
          by_cases hm : kv.1 ∈ cs
          · rw [if_pos ⟨hdx, hm⟩, if_pos ⟨hdx, this.mpr hm⟩]
          · rw [if_neg (by tauto), if_neg (by rw [this]; tauto)]
        · rw [if_neg (by tauto), if_neg (by tauto)]
    · rw [if_neg hd]
      rw [ih]
      apply List.map_congr_left
      intro kv _
      by_cases hdx : digitStart kv.1 = true
      · have hxc : kv.1 ≠ c := fun h => hd (h ▸ hdx)
        have : (kv.1 ∈ c :: cs) ↔ (kv.1 ∈ cs) := by simp [List.mem_cons, hxc]
        by_cases hm : kv.1 ∈ cs
        · rw [if_pos ⟨hdx, hm⟩, if_pos ⟨hdx, this.mpr hm⟩]
        · rw [if_neg (by tauto), if_neg (by rw [this]; tauto)]
      · rw [if_neg (by tauto), if_neg (by tauto)]

theorem renameDigits_columns (df : DataFrame) :
    (renameDigits df).columns = df.columns.map gRen := by
  unfold renameDigits
  rw [renameFold_eq]
  simp only
  rw [renomeia_cols_map]
  apply List.map_congr_left
  intro x hx
  unfold gRen
  by_cases hdx : digitStart x = true
  · rw [if_pos ⟨hdx, hx⟩, if_pos hdx]
  · rw [if_neg (by tauto), if_neg hdx]

theorem renameDigits_rows (df : DataFrame)
    (hwf : ∀ r ∈ df.rows, ∀ kv ∈ r, kv.1 ∈ df.columns) :
    (renameDigits df).rows = df.rows.map (fun r => r.map (fun kv =>
      if digitStart kv.1 = true then (cnaePref ++ kv.1, kv.2) else kv)) := by
  unfold renameDigits
  rw [renameFold_eq]
  simp only
  apply List.map_congr_left
  intro r hr
  rw [renomeia_fila_map]
  apply List.map_congr_left
  intro kv hkv
  by_cases hdx : digitStart kv.1 = true
  · rw [if_pos ⟨hdx, hwf r hr kv hkv⟩, if_pos hdx]
  · rw [if_neg (by tauto), if_neg hdx]

/-- A concrete accumulated table holding the `qsa` and `cnaes_secundarios`
columns, for instantiating the post-processing theorems. -/
def tabelaExemplo : Option DataFrame :=
  some ⟨["qsa", "cnaes_secundarios", "razao_social"],
    [[("qsa", Json.arr []),
      ("cnaes_secundarios", Json.arr [Json.obj [("codigo", Json.num 123)]]),
      ("razao_social", Json.str "ACME")]]⟩

/-- The table `tabelaExemplo` yields just before the rename loop. -/
def preExemplo : DataFrame :=
  ⟨["razao_social", "0.codigo"],
   [[("razao_social", Json.str "ACME"), ("0.codigo", Json.num 123)]]⟩

/-- C1: when post-processing completes, the final column list is exactly the
pre-rename column list mapped through the rename rule, so no final column
starts with a digit, every pre-rename column starting with a digit is present
as `cnae_secundario_<original>`, and every other column is present
unchanged. -/
theorem lei_de_renomeacao (st : Option DataFrame) (dfp : DataFrame)
    (h : normalizar_pre st = .ok dfp) :
    normalizar_dados st = .ok (renameDigits dfp) ∧
    (renameDigits dfp).columns = dfp.columns.map gRen ∧
    (∀ c ∈ (renameDigits dfp).columns, digitStart c = false) ∧
    (∀ c ∈ dfp.columns, digitStart c = true →
      (cnaePref ++ c) ∈ (renameDigits dfp).columns) ∧
    (∀ c ∈ dfp.columns, digitStart c = false → c ∈ (renameDigits dfp).columns) := by
  refine ⟨?_, renameDigits_columns dfp, ?_, ?_, ?_⟩
  · unfold normalizar_dados
    rw [h]
    rfl
  · intro c hc
    rw [renameDigits_columns] at hc
    obtain ⟨x, _, hx⟩ := List.mem_map.mp hc
    rw [← hx]
    exact gRen_digitStart x
  · intro c hc hd
    rw [renameDigits_columns]
    have : gRen c = cnaePref ++ c := by unfold gRen; rw [if_pos hd]
    exact this ▸ List.mem_map_of_mem gRen hc
  · intro c hc hd
    rw [renameDigits_columns]
    have : gRen c = c := by unfold gRen; simp [hd]
    exact this ▸ List.mem_map_of_mem gRen hc

theorem lei_de_renomeacao_aplicada :
    normalizar_dados tabelaExemplo = .ok (renameDigits preExemplo) ∧
    (renameDigits preExemplo).columns = preExemplo.columns.map gRen :=
  ⟨(lei_de_renomeacao tabelaExemplo preExemplo rfl).1,
   (lei_de_renomeacao tabelaExemplo preExemplo rfl).2.1⟩

/-! ### Key shapes produced by the flattening -/

mutual
theorem flattenVal_key (pre : String) (v : Json) :
    ∀ kv ∈ flattenVal pre v, ∃ t, kv.1 = pre ++ t := by
  match v with
  | .obj kvs =>
    intro kv hkv
    rw [flattenVal] at hkv
    obtain ⟨u, hu⟩ := flattenKvs_key pre kvs kv hkv
    exact ⟨"." ++ u, by rw [hu, String.append_assoc]⟩
  | .null =>
    intro kv hkv
    rw [show flattenVal pre Json.null = [(pre, Json.null)] from rfl] at hkv
    simp at hkv
    exact ⟨"", by simp [hkv]⟩
  | .bool b =>
    intro kv hkv
    rw [show flattenVal pre (Json.bool b) = [(pre, Json.bool b)] from rfl] at hkv
    simp at hkv
    exact ⟨"", by simp [hkv]⟩
  | .num n =>
    intro kv hkv
    rw [show flattenVal pre (Json.num n) = [(pre, Json.num n)] from rfl] at hkv
    simp at hkv
    exact ⟨"", by simp [hkv]⟩
  | .str s =>
    intro kv hkv
    rw [show flattenVal pre (Json.str s) = [(pre, Json.str s)] from rfl] at hkv
    simp at hkv
    exact ⟨"", by simp [hkv]⟩
  | .arr xs =>
    intro kv hkv
    rw [show flattenVal pre (Json.arr xs) = [(pre, Json.arr xs)] from rfl] at hkv
    simp at hkv
    exact ⟨"", by simp [hkv]⟩

theorem flattenKvs_key (pre : String) (kvs : List (String × Json)) :
    ∀ kv ∈ flattenKvs pre kvs, ∃ u, kv.1 = (pre ++ ".") ++ u := by
  match kvs with
  | [] => intro kv hkv; rw [flattenKvs] at hkv; simp at hkv
  | (k, v) :: rest =>
    intro kv hkv
    rw [flattenKvs] at hkv
    rcases List.mem_append.mp hkv with h | h
    · obtain ⟨t, ht⟩ := flattenVal_key (pre ++ "." ++ k) v kv h
      exact ⟨k ++ t, by rw [ht, String.append_assoc]⟩
    · exact flattenKvs_key pre rest kv h
end

theorem flattenKvs_key_dot (pre : String) (kvs : List (String × Json)) :
    ∀ kv ∈ flattenKvs pre kvs, '.' ∈ kv.1.data := by
  intro kv hkv
  obtain ⟨u, hu⟩ := flattenKvs_key pre kvs kv hkv
  rw [hu, String.data_append, String.data_append]
  simp [String.data]

/-- In a flattened record, any binding whose key contains no dot carries a
non-object value: the dot-free keys come from the value-preserving part of the
flattening, which keeps only non-objects. -/
def boaFila (r : List (String × Json)) : Prop :=
  ∀ kv ∈ r, '.' ∉ kv.1.data → kv.2.isObj = false

theorem normalizeObjPairs_boa (kvs : List (String × Json)) :
    boaFila (normalizeObjPairs kvs) := by
  intro kv hkv hdot
  unfold normalizeObjPairs at hkv
  rcases List.mem_append.mp hkv with h | h
  · have := (List.mem_filter.mp h).2
    simpa using this
  · rw [List.mem_flatten] at h
    obtain ⟨sub, hsub, hkvsub⟩ := h
    obtain ⟨kv0, _, hkv0⟩ := List.mem_map.mp hsub
    by_cases hobj : kv0.2.isObj = true
    · rw [if_pos hobj] at hkv0
      match hv : kv0.2 with
      | .obj inner =>
        rw [hv] at hkv0
        rw [show flattenVal kv0.1 (Json.obj inner) = flattenKvs kv0.1 inner from rfl]
          at hkv0
        exact absurd (flattenKvs_key_dot kv0.1 inner kv (hkv0 ▸ hkvsub)) hdot
      | .null => rw [hv] at hobj; simp [Json.isObj] at hobj
      | .bool b => rw [hv] at hobj; simp [Json.isObj] at hobj
      | .num n => rw [hv] at hobj; simp [Json.isObj] at hobj
      | .str s => rw [hv] at hobj; simp [Json.isObj] at hobj
      | .arr xs => rw [hv] at hobj; simp [Json.isObj] at hobj
    · rw [if_neg hobj] at hkv0
      rw [← hkv0] at hkvsub
      simp at hkvsub

theorem rowOfJson_boa (j : Json) : boaFila (rowOfJson j) := by
  match j with
  | .obj kvs => exact normalizeObjPairs_boa kvs
  | .null => intro kv hkv; simp [rowOfJson] at hkv
  | .bool b => intro kv hkv; simp [rowOfJson] at hkv
  | .num n => intro kv hkv; simp [rowOfJson] at hkv
  | .str s => intro kv hkv; simp [rowOfJson] at hkv
  | .arr xs => intro kv hkv; simp [rowOfJson] at hkv

theorem boaFila_filter (r : List (String × Json)) (p : String × Json → Bool)
    (h : boaFila r) : boaFila (r.filter p) :=
  fun kv hkv => h kv (List.mem_filter.mp hkv).1

theorem json_normalize_record_boa (data : Json) (df : DataFrame)
    (h : json_normalize_record data = .ok df) : ∀ r ∈ df.rows, boaFila r := by
  match data with
  | .obj kvs =>
    simp only [json_normalize_record, Except.ok.injEq] at h
    intro r hr
    rw [← h] at hr
    simp only [mkDF] at hr
    rcases List.mem_singleton.mp hr with rfl
    exact normalizeObjPairs_boa kvs
  | .arr xs =>
    simp only [json_normalize_record, Except.ok.injEq] at h
    intro r hr
    rw [← h] at hr
    simp only [mkDF] at hr
    obtain ⟨j, _, hj⟩ := List.mem_map.mp hr
    exact hj ▸ rowOfJson_boa j
  | .null =>
    exact absurd (show (Except.error Err.notImplementedError : Except Err DataFrame)
      = Except.ok df from h) (by simp)
  | .bool b =>
    exact absurd (show (Except.error Err.notImplementedError : Except Err DataFrame)
      = Except.ok df from h) (by simp)
  | .num n =>
    exact absurd (show (Except.error Err.notImplementedError : Except Err DataFrame)
      = Except.ok df from h) (by simp)
  | .str s =>
    exact absurd (show (Except.error Err.notImplementedError : Except Err DataFrame)
      = Except.ok df from h) (by simp)

theorem processar_aux_boa (fetch : String → Except Unit Json)
    (cells : List (Option Json)) :
    ∀ (st : Option DataFrame) (df' : DataFrame),
      processar_aux fetch st cells = .ok (some df') →
      (∀ df0, st = some df0 → ∀ r ∈ df0.rows, boaFila r) →
      ∀ r ∈ df'.rows, boaFila r := by
  induction cells with
  | nil =>
    intro st df' h hst
    simp only [processar_aux, Except.ok.injEq] at h
    exact hst df' h
  | cons cell rest ih =>
    intro st df' h hst
    simp only [processar_aux, Bind.bind, Except.bind] at h
    cases hc : consulta_cnpj fetch cell with
    | error e => simp only [hc] at h; exact absurd h (by simp)
    | ok data =>
      simp only [hc] at h
      cases hj : json_normalize_record data with
      | error e => simp only [hj] at h; exact absurd h (by simp)
      | ok df2 =>
        simp only [hj] at h
        refine ih _ df' h ?_
        intro df0 hdf0 r hr
        have hdf2 := json_normalize_record_boa data df2 hj
        cases st with
        | none =>
          simp only [Option.some.injEq] at hdf0
          rw [← hdf0] at hr
          exact hdf2 r hr
        | some prev =>
          simp only [Option.some.injEq] at hdf0
          rw [← hdf0] at hr
          simp only [concatRows] at hr
          rcases List.mem_append.mp hr with h1 | h1
          · exact hst prev rfl r h1
          · exact hdf2 r h1

/-! ### Inversion of the pipeline stages -/

theorem dropCol_inv (df : DataFrame) (c : String) (d : DataFrame)
    (h : dropCol df c = some d) :
    d.columns = df.columns.filter (fun x => x != c) ∧
    d.rows = df.rows.map (fun r => r.filter (fun kv => kv.1 != c)) ∧
    c ∈ df.columns := by
  unfold dropCol at h
  by_cases hm : c ∈ df.columns
  · rw [if_pos hm] at h
    simp only [Option.some.injEq] at h
    rw [← h]
    exact ⟨rfl, rfl, hm⟩
  · rw [if_neg hm] at h
    simp at h

theorem getCol_inv (df : DataFrame) (c : String) (col : List (Option Json))
    (h : getCol df c = some col) :
    col = df.rows.map (fun r => r.lookup c) ∧ c ∈ df.columns := by
  unfold getCol at h
  by_cases hm : c ∈ df.columns
  · rw [if_pos hm] at h
    simp only [Option.some.injEq] at h
    exact ⟨h.symm, hm⟩
  · rw [if_neg hm] at h
    simp at h

theorem normalizar_pre_inv (st : Option DataFrame) (dfp : DataFrame)
    (h : normalizar_pre st = .ok dfp) :
    ∃ df0 d1 col, st = some df0 ∧ dropCol df0 "qsa" = some d1 ∧
      getCol d1 "cnaes_secundarios" = some col ∧
      dropCol (concatAxis1 d1 (normalize_series col)) "cnaes_secundarios"
        = some dfp := by
  cases st with
  | none => exact absurd h (by simp [normalizar_pre])
  | some df0 =>
    simp only [normalizar_pre] at h
    cases h1 : dropCol df0 "qsa" with
    | none => simp only [h1] at h; exact absurd h (by simp)
    | some d1 =>
      simp only [h1] at h
      cases h2 : getCol d1 "cnaes_secundarios" with
      | none => simp only [h2] at h; exact absurd h (by simp)
      | some col =>
        simp only [h2] at h
        cases h3 : dropCol (concatAxis1 d1 (normalize_series col))
            "cnaes_secundarios" with
        | none => simp only [h3] at h; exact absurd h (by simp)
        | some d3 =>
          simp only [h3, Except.ok.injEq] at h
          exact ⟨df0, d1, col, rfl, h1, h2, h ▸ h3⟩

theorem normalizar_dados_inv (st : Option DataFrame) (df : DataFrame)
    (h : normalizar_dados st = .ok df) :
    ∃ dfp, normalizar_pre st = .ok dfp ∧ df = renameDigits dfp := by
  unfold normalizar_dados at h
  cases hp : normalizar_pre st with
  | error e => rw [hp] at h; exact absurd h (by simp [Except.map])
  | ok dfp =>
    rw [hp] at h
    simp only [Except.map, Except.ok.injEq] at h
    exact ⟨dfp, rfl, h.symm⟩

theorem executar_ok_inv (input : Except Unit DataFrame)
    (fetch : String → Except Unit Json) (out : Csv)
    (h : executar input fetch = .ok out) :
    ∃ cnpjs st df, ler_csv input = .ok cnpjs ∧
      processar_consultas fetch cnpjs = .ok st ∧
      normalizar_dados st = .ok df ∧ out = salvar_resultado df := by
  simp only [executar, Bind.bind, Except.bind] at h
  cases h1 : ler_csv input with
  | error e => simp only [h1] at h; exact absurd h (by simp)
  | ok cnpjs =>
    simp only [h1] at h
    cases h2 : processar_consultas fetch cnpjs with
    | error e => simp only [h2] at h; exact absurd h (by simp)
    | ok st =>
      simp only [h2] at h
      cases h3 : normalizar_dados st with
      | error e => simp only [h3] at h; exact absurd h (by simp)
      | ok df =>
        simp only [h3, pure, Except.pure, Except.ok.injEq] at h
        exact ⟨cnpjs, st, df, rfl, h2, h3, h.symm⟩

/-! ### The expansion only creates digit-prefixed columns -/

theorem expandeLista_key_digit (xs : List Json) :
    ∀ i, ∀ kv ∈ expandeLista i xs, digitStart kv.1 = true := by
  induction xs with
  | nil => intro i kv hkv; simp [expandeLista] at hkv
  | cons e rest ih =>
    intro i kv hkv
    rw [expandeLista] at hkv
    rcases List.mem_append.mp hkv with h | h
    · obtain ⟨t, ht⟩ := flattenVal_key (Nat.repr i) e kv h
      rw [ht]
      exact digitStart_repr_append i t
    · exact ih (i + 1) kv h

theorem expandCell_key_digit (cell : Option Json)
    (hcell : ∀ v, cell = some v → v.isObj = false) :
    ∀ kv ∈ expandCell cell, digitStart kv.1 = true := by
  match cell with
  | none => intro kv hkv; simp [expandCell] at hkv
  | some (.arr xs) => exact expandeLista_key_digit xs 0
  | some (.obj kvs) => exact absurd (hcell _ rfl) (by simp [Json.isObj])
  | some .null => intro kv hkv; simp [expandCell] at hkv
  | some (.bool b) => intro kv hkv; simp [expandCell] at hkv
  | some (.num n) => intro kv hkv; simp [expandCell] at hkv
  | some (.str s) => intro kv hkv; simp [expandCell] at hkv

theorem mkDF_cols_mem (rows : List (List (String × Json))) (c : String)
    (h : c ∈ (mkDF rows).columns) : ∃ r ∈ rows, c ∈ r.map Prod.fst := by
  have aux : ∀ (rs : List (List (String × Json))) (init : List String),
      c ∈ rs.foldl (fun a r => unionCols a (r.map Prod.fst)) init →
      c ∈ init ∨ ∃ r ∈ rs, c ∈ r.map Prod.fst := by
    intro rs
    induction rs with
    | nil => intro init hi; exact Or.inl hi
    | cons r rs ih =>
      intro init hi
      simp only [List.foldl_cons] at hi
      rcases ih _ hi with h1 | h1
      · rcases unionCols_mem_inv _ _ _ h1 with h2 | h2
        · exact Or.inl h2
        · exact Or.inr ⟨r, List.mem_cons_self _ _, h2⟩
      · obtain ⟨r', hr', hc'⟩ := h1
        exact Or.inr ⟨r', List.mem_cons_of_mem _ hr', hc'⟩
  rcases aux rows [] h with h1 | h1
  · simp at h1
  · exact h1

theorem cnaePref_append_ne_qsa (c : String) : cnaePref ++ c ≠ "qsa" := by
  intro h
  have hd := congrArg String.data h
  rw [String.data_append] at hd
  have hlen := congrArg List.length hd
  rw [List.length_append] at hlen
  rw [show cnaePref.data.length = 16 from by decide] at hlen
  rw [show ("qsa" : String).data.length = 3 from by decide] at hlen
  omega

theorem cnaePref_append_ne_cnaes (c : String) :
    cnaePref ++ c ≠ "cnaes_secundarios" := by
  intro h
  have hd := congrArg String.data h
  rw [String.data_append] at hd
  have h16 := congrArg (fun l => List.take 16 l) hd
  simp only at h16
  rw [List.take_left' (by decide : cnaePref.data.length = 16)] at h16
  exact absurd h16.symm (by decide)

/-- C2: a run that reaches the writer produces a header without `qsa` and
without `cnaes_secundarios`: both are dropped, the expansion of the
`cnaes_secundarios` column only creates digit-prefixed columns (its cells,
being dot-free bindings of flattened records, never hold objects), and the
rename only produces `cnae_secundario_`-prefixed names. -/
theorem colunas_descartadas (input : Except Unit DataFrame)
    (fetch : String → Except Unit Json) (out : Csv)
    (h : executar input fetch = .ok out) :
    "qsa" ∉ out.header ∧ "cnaes_secundarios" ∉ out.header := by
  obtain ⟨cnpjs, st, df, _, h2, h3, hout⟩ := executar_ok_inv input fetch out h
  obtain ⟨dfp, hpre, hdf⟩ := normalizar_dados_inv st df h3
  obtain ⟨df0, d1, col, hst, hq, hg, hd3⟩ := normalizar_pre_inv st dfp hpre
  rw [hst] at h2
  have hboa : ∀ r ∈ df0.rows, boaFila r := by
    refine processar_aux_boa fetch cnpjs none df0 h2 ?_
    intro df0' hnone
    exact absurd hnone (by simp)
  obtain ⟨hd3c, _, _⟩ := dropCol_inv _ _ _ hd3
  obtain ⟨hq_c, hq_r, _⟩ := dropCol_inv _ _ _ hq
  obtain ⟨hcol, _⟩ := getCol_inv _ _ _ hg
  have hA : ∀ c ∈ dfp.columns, c ≠ "qsa" ∧ c ≠ "cnaes_secundarios" := by
    intro c hc
    rw [hd3c] at hc
    have hcn : c ≠ "cnaes_secundarios" := by
      have := (List.mem_filter.mp hc).2
      simpa using this
    have hmem := (List.mem_filter.mp hc).1
    simp only [concatAxis1] at hmem
    rcases List.mem_append.mp hmem with hm | hm
    · rw [hq_c] at hm
      have := (List.mem_filter.mp hm).2
      exact ⟨by simpa using this, hcn⟩
    · have hdig : digitStart c = true := by
        rw [show normalize_series col = mkDF (col.map expandCell) from rfl] at hm
        obtain ⟨r, hr, hcr⟩ := mkDF_cols_mem _ c hm
        obtain ⟨cell, hcell_mem, hcell⟩ := List.mem_map.mp hr
        obtain ⟨kv, hkv, hkvc⟩ := List.mem_map.mp hcr
        have hcellgood : ∀ v, cell = some v → v.isObj = false := by
          intro v hv
          rw [hcol] at hcell_mem
          obtain ⟨r1, hr1, hlkp⟩ := List.mem_map.mp hcell_mem
          rw [hq_r] at hr1
          obtain ⟨r0, hr0, hfil⟩ := List.mem_map.mp hr1
          have hb1 : boaFila r1 := hfil ▸ boaFila_filter r0 _ (hboa r0 hr0)
          have : ("cnaes_secundarios", v) ∈ r1 :=
            lookup_mem r1 _ v (by rw [hlkp, hv])
          exact hb1 ("cnaes_secundarios", v) this
            (show '.' ∉ ("cnaes_secundarios" : String).data by decide)
        have := expandCell_key_digit cell hcellgood kv (hcell ▸ hkv)
        exact hkvc ▸ this
      refine ⟨fun hqe => ?_, hcn⟩
      rw [hqe] at hdig
      exact absurd hdig (by decide)
  have hheader : out.header = dfp.columns.map gRen := by
    rw [hout, hdf]
    show (renameDigits dfp).columns = _
    exact renameDigits_columns dfp
  constructor
  · intro hqsa
    rw [hheader] at hqsa
    obtain ⟨c, hc, hgc⟩ := List.mem_map.mp hqsa
    unfold gRen at hgc
    by_cases hdg : digitStart c = true
    · rw [if_pos hdg] at hgc
      exact cnaePref_append_ne_qsa c hgc
    · rw [if_neg hdg] at hgc
      exact (hA c hc).1 hgc
  · intro hcna
    rw [hheader] at hcna
    obtain ⟨c, hc, hgc⟩ := List.mem_map.mp hcna
    unfold gRen at hgc
    by_cases hdg : digitStart c = true
    · rw [if_pos hdg] at hgc
      exact cnaePref_append_ne_cnaes c hgc
    · rw [if_neg hdg] at hgc
      exact (hA c hc).2 hgc

theorem colunas_descartadas_aplicado :
    "qsa" ∉ saidaCenario.header ∧ "cnaes_secundarios" ∉ saidaCenario.header :=
  colunas_descartadas entradaCenario servicoCenario saidaCenario rfl

/-! ### The accumulation phase, row by row -/

/-- The record fetched for one cell (meaningful when the fetch succeeded). -/
def valorDe (fetch : String → Except Unit Json) (cell : Option Json) : Json :=
  match consulta_cnpj fetch cell with
  | .ok j => j
  | .error _ => .null

/-- The flattened row the accumulation produces for one cell. -/
def filaDe (fetch : String → Except Unit Json) (cell : Option Json) :
    List (String × Json) :=
  rowOfJson (valorDe fetch cell)

/-- Every identifier cell is a string whose fetch yields a JSON object — the
situation the pipeline is written for. -/
def registrosObj (fetch : String → Except Unit Json)
    (cells : List (Option Json)) : Prop :=
  ∀ cell ∈ cells, ∃ s kvs, cell = some (Json.str s) ∧
    fetch (URI ++ s) = .ok (Json.obj kvs)

/-- The column list accumulated by the fetch loop on top of `init`. -/
def colunasAcum (fetch : String → Except Unit Json) (init : List String)
    (cells : List (Option Json)) : List String :=
  cells.foldl (fun acc cell =>
    unionCols acc (unionCols [] ((filaDe fetch cell).map Prod.fst))) init

/-- The column list of the table the fetch loop builds from scratch. -/
def colunasDe (fetch : String → Except Unit Json) :
    List (Option Json) → List String
  | [] => []
  | cell :: rest =>
    colunasAcum fetch (unionCols [] ((filaDe fetch cell).map Prod.fst)) rest

theorem colunasAcum_cons (fetch : String → Except Unit Json)
    (init : List String) (cell : Option Json) (rest : List (Option Json)) :
    colunasAcum fetch init (cell :: rest) =
      colunasAcum fetch
        (unionCols init (unionCols [] ((filaDe fetch cell).map Prod.fst))) rest := rfl

theorem processar_aux_obj (fetch : String → Except Unit Json)
    (cells : List (Option Json)) (h : registrosObj fetch cells) :
    ∀ df : DataFrame, processar_aux fetch (some df) cells =
      .ok (some ⟨colunasAcum fetch df.columns cells,
                 df.rows ++ cells.map (filaDe fetch)⟩) := by
  induction cells with
  | nil =>
    intro df
    simp only [processar_aux, colunasAcum, List.foldl_nil, List.map_nil,
      List.append_nil]
  | cons cell rest ih =>
    intro df
    obtain ⟨s, kvs, hcell, hfetch⟩ := h cell (List.mem_cons_self _ _)
    have hcc : consulta_cnpj fetch cell = .ok (Json.obj kvs) := by
      rw [hcell]
      simp only [consulta_cnpj, hfetch]
    have hval : valorDe fetch cell = Json.obj kvs := by
      simp only [valorDe, hcc]
    simp only [processar_aux, Bind.bind, Except.bind, hcc]
    rw [show json_normalize_record (Json.obj kvs)
      = .ok (mkDF [normalizeObjPairs kvs]) from rfl]
    show processar_aux fetch
      (some (concatRows df (mkDF [normalizeObjPairs kvs]))) rest = _
    rw [ih (fun c hc => h c (List.mem_cons_of_mem _ hc))]
    rw [colunasAcum_cons]
    have hrow : filaDe fetch cell = normalizeObjPairs kvs := by
      simp [filaDe, hval, rowOfJson]
    simp [concatRows, mkDF, hrow, List.append_assoc]

theorem processar_obj (fetch : String → Except Unit Json)
    (cells : List (Option Json)) (h : registrosObj fetch cells)
    (hne : cells ≠ []) :
    processar_consultas fetch cells =
      .ok (some ⟨colunasDe fetch cells, cells.map (filaDe fetch)⟩) := by
  match cells with
  | [] => exact absurd rfl hne
  | cell :: rest =>
    obtain ⟨s, kvs, hcell, hfetch⟩ := h cell (List.mem_cons_self _ _)
    have hcc : consulta_cnpj fetch cell = .ok (Json.obj kvs) := by
      rw [hcell]
      simp only [consulta_cnpj, hfetch]
    have hval : valorDe fetch cell = Json.obj kvs := by
      simp only [valorDe, hcc]
    show processar_aux fetch none (cell :: rest) = _
    simp only [processar_aux, Bind.bind, Except.bind, hcc]
    rw [show json_normalize_record (Json.obj kvs)
      = .ok (mkDF [normalizeObjPairs kvs]) from rfl]
    show processar_aux fetch (some (mkDF [normalizeObjPairs kvs])) rest = _
    rw [processar_aux_obj fetch rest (fun c hc => h c (List.mem_cons_of_mem _ hc))]
    have hrow : filaDe fetch cell = normalizeObjPairs kvs := by
      simp [filaDe, hval, rowOfJson]
    show Except.ok (some (DataFrame.mk
        (colunasAcum fetch (mkDF [normalizeObjPairs kvs]).columns rest)
        ((mkDF [normalizeObjPairs kvs]).rows ++ rest.map (filaDe fetch)))) =
      Except.ok (some (DataFrame.mk
        (colunasAcum fetch (unionCols [] ((filaDe fetch cell).map Prod.fst)) rest)
        ((cell :: rest).map (filaDe fetch))))
    simp [mkDF, hrow]

theorem colunasAcum_append (fetch : String → Except Unit Json)
    (init : List String) (xs ys : List (Option Json)) :
    colunasAcum fetch init (xs ++ ys) =
      colunasAcum fetch (colunasAcum fetch init xs) ys := by
  unfold colunasAcum
  rw [List.foldl_append]

theorem colunasDe_append (fetch : String → Except Unit Json)
    (xs ys : List (Option Json)) (hne : xs ≠ []) :
    colunasDe fetch (xs ++ ys) =
      colunasAcum fetch (colunasDe fetch xs) ys := by
  match xs with
  | [] => exact absurd rfl hne
  | cell :: rest =>
    show colunasAcum fetch _ (rest ++ ys) = _
    rw [colunasAcum_append]
    rfl

theorem colunasAcum_struct (fetch : String → Except Unit Json)
    (ys : List (Option Json)) :
    ∀ init, ∃ t, colunasAcum fetch init ys = init ++ t ∧ ∀ c ∈ t, c ∉ init := by
  induction ys with
  | nil => exact fun init => ⟨[], by simp [colunasAcum], by simp⟩
  | cons cell rest ih =>
    intro init
    rw [colunasAcum_cons]
    obtain ⟨t1, ht1, hm1⟩ :=
      unionCols_struct init (unionCols [] ((filaDe fetch cell).map Prod.fst))
    obtain ⟨t2, ht2, hm2⟩ := ih (unionCols init
      (unionCols [] ((filaDe fetch cell).map Prod.fst)))
    refine ⟨t1 ++ t2, ?_, ?_⟩
    · rw [ht2, ht1, List.append_assoc]
    · intro c hc
      rcases List.mem_append.mp hc with h | h
      · exact (hm1 c h).2
      · intro hini
        exact hm2 c h (unionCols_mem_left _ _ _ hini)

theorem colunasAcum_mono (fetch : String → Except Unit Json)
    (ys : List (Option Json)) :
    ∀ init c, c ∈ init → c ∈ colunasAcum fetch init ys := by
  induction ys with
  | nil => exact fun init c h => h
  | cons cell rest ih =>
    intro init c h
    rw [colunasAcum_cons]
    exact ih _ c (unionCols_mem_left _ _ _ h)

theorem colunasAcum_key (fetch : String → Except Unit Json)
    (ys : List (Option Json)) :
    ∀ init cell, cell ∈ ys → ∀ k ∈ (filaDe fetch cell).map Prod.fst,
      k ∈ colunasAcum fetch init ys := by
  induction ys with
  | nil => intro _ _ h; simp at h
  | cons cell0 rest ih =>
    intro init cell hcell k hk
    rw [colunasAcum_cons]
    rcases List.mem_cons.mp hcell with rfl | hcell
    · exact colunasAcum_mono fetch rest _ k
        (unionCols_mem_right _ _ _ (unionCols_mem_right _ _ _ hk))
    · exact ih _ cell hcell k hk

theorem colunasDe_key (fetch : String → Except Unit Json)
    (cells : List (Option Json)) (cell : Option Json) (hcell : cell ∈ cells) :
    ∀ k ∈ (filaDe fetch cell).map Prod.fst, k ∈ colunasDe fetch cells := by
  match cells with
  | [] => simp at hcell
  | cell0 :: rest =>
    intro k hk
    show k ∈ colunasAcum fetch _ rest
    rcases List.mem_cons.mp hcell with rfl | hcell
    · exact colunasAcum_mono fetch rest _ k (unionCols_mem_right _ _ _ hk)
    · exact colunasAcum_key fetch rest _ cell hcell k hk

/-- C5: when every identifier cell is a string and every fetch yields a JSON
object (the parenthetical of the claim: each successfully fetched JSON-object
record contributes exactly one row), a completed fetch phase over a non-empty
identifier list produces a table with exactly one row per identifier. -/
theorem uma_fila_por_cnpj (fetch : String → Except Unit Json)
    (cells : List (Option Json)) (h : registrosObj fetch cells)
    (hne : cells ≠ []) :
    ∃ df, processar_consultas fetch cells = .ok (some df) ∧
      df.rows.length = cells.length := by
  refine ⟨_, processar_obj fetch cells h hne, ?_⟩
  simp

theorem uma_fila_por_cnpj_aplicado :
    ∃ df, processar_consultas servicoCenario
        [some (Json.str "11222333000181")] = .ok (some df) ∧
      df.rows.length = 1 := by
  obtain ⟨df, h1, h2⟩ := uma_fila_por_cnpj servicoCenario
    [some (Json.str "11222333000181")]
    (by
      intro cell hc
      rcases List.mem_singleton.mp hc with rfl
      exact ⟨"11222333000181",
        [("qsa", Json.arr [Json.obj [("nome", Json.str "A")]]),
         ("cnaes_secundarios",
           Json.arr [Json.obj [("codigo", Json.num 123),
             ("descricao", Json.str "x")]]),
         ("razao_social", Json.str "ACME")], rfl, rfl⟩)
    (by simp)
  exact ⟨df, h1, h2⟩

/-- C4: accumulation adds one row per record in order and only ever appends
new columns: after processing `xs ++ ys`, the columns are those after `xs`
followed by a (possibly empty) block of new trailing columns, the first
`|xs|` rows are unchanged, and every earlier row has a null cell in every
newly added column. -/
theorem acumulacao_une_colunas (fetch : String → Except Unit Json)
    (xs ys : List (Option Json)) (h : registrosObj fetch (xs ++ ys))
    (hne : xs ≠ []) :
    ∃ dfx dff t,
      processar_consultas fetch xs = .ok (some dfx) ∧
      processar_consultas fetch (xs ++ ys) = .ok (some dff) ∧
      dff.columns = dfx.columns ++ t ∧
      dff.rows = dfx.rows ++ ys.map (filaDe fetch) ∧
      ∀ c ∈ t, ∀ r ∈ dfx.rows, r.lookup c = none := by
  have hx : registrosObj fetch xs :=
    fun c hc => h c (List.mem_append_left _ hc)
  obtain ⟨t, ht, hmem⟩ :=
    colunasAcum_struct fetch ys (colunasDe fetch xs)
  refine ⟨_, _, t, processar_obj fetch xs hx hne,
    processar_obj fetch (xs ++ ys) h (fun hxy => hne (List.append_eq_nil.mp hxy).1),
    ?_, ?_, ?_⟩
  · show colunasDe fetch (xs ++ ys) = colunasDe fetch xs ++ t
    rw [colunasDe_append fetch xs ys hne, ht]
  · show (xs ++ ys).map (filaDe fetch) = xs.map (filaDe fetch) ++ ys.map (filaDe fetch)
    exact List.map_append _ _ _
  · intro c hc r hr
    obtain ⟨cell, hcell, hcr⟩ := List.mem_map.mp hr
    apply lookup_none_of_not_key
    intro hk
    rw [← hcr] at hk
    exact hmem c hc (colunasDe_key fetch xs cell hcell c hk)

/-- A two-identifier input where the second record has a nested field the
first record lacks. -/
def celulasPar : List (Option Json) := [some (Json.str "a"), some (Json.str "b")]

/-- The mocked service for `celulasPar`. -/
def servicoPar : String → Except Unit Json := fun u =>
  if u = "https://minhareceita.org/a" then .ok (Json.obj [("x", Json.num 1)])
  else if u = "https://minhareceita.org/b" then
    .ok (Json.obj [("x", Json.num 2), ("y", Json.obj [("z", Json.num 3)])])
  else .error ()

/-- The table accumulated for the first identifier alone. -/
def tabelaParIni : DataFrame := ⟨["x"], [[("x", Json.num 1)]]⟩

/-- The table accumulated for both identifiers: `y.z` is a trailing column
and the first row has no binding (a null cell) for it. -/
def tabelaPar : DataFrame :=
  ⟨["x", "y.z"], [[("x", Json.num 1)], [("x", Json.num 2), ("y.z", Json.num 3)]]⟩

theorem acumulacao_une_colunas_aplicada :
    processar_consultas servicoPar celulasPar = .ok (some tabelaPar) ∧
    (([("x", Json.num 1)] : List (String × Json)).lookup "y.z" = none) := by
  obtain ⟨dfx, dff, t, h1, h2, h3, h4, h5⟩ := acumulacao_une_colunas servicoPar
    [some (Json.str "a")] [some (Json.str "b")]
    (by
      intro cell hc
      rcases List.mem_cons.mp hc with rfl | hc
      · exact ⟨"a", [("x", Json.num 1)], rfl, rfl⟩
      · rcases List.mem_singleton.mp hc with rfl
        exact ⟨"b", [("x", Json.num 2), ("y", Json.obj [("z", Json.num 3)])],
          rfl, rfl⟩)
    (by simp)
  have hdfx : dfx = tabelaParIni := by
    have := h1.symm.trans (show processar_consultas servicoPar
      [some (Json.str "a")] = Except.ok (some tabelaParIni) from rfl)
    simpa using this
  have hdff : dff = tabelaPar := by
    have := h2.symm.trans (show processar_consultas servicoPar
      ([some (Json.str "a")] ++ [some (Json.str "b")])
        = Except.ok (some tabelaPar) from rfl)
    simpa using this
  have ht : t = ["y.z"] := by
    rw [hdff, hdfx] at h3
    simpa [tabelaPar, tabelaParIni] using h3.symm
  have hnull := h5 "y.z" (by rw [ht]; simp) [("x", Json.num 1)]
    (by rw [hdfx]; simp [tabelaParIni])
  rw [hdff] at h2
  exact ⟨h2, hnull⟩

/-! ### The whole pipeline as a per-row transform -/

theorem zipWith_map_same {α β : Type} (f g : α → List β) (l : List α) :
    List.zipWith (· ++ ·) (l.map f) (l.map g) = l.map (fun x => f x ++ g x) := by
  induction l with
  | nil => rfl
  | cons x l ih => simp [ih]

theorem mkDF_wf (rows : List (List (String × Json))) :
    ∀ r ∈ rows, ∀ k ∈ r.map Prod.fst, k ∈ (mkDF rows).columns := by
  have mono : ∀ (rs : List (List (String × Json))) (init : List String) (c : String),
      c ∈ init → c ∈ rs.foldl (fun a r => unionCols a (r.map Prod.fst)) init := by
    intro rs
    induction rs with
    | nil => exact fun init c h => h
    | cons r rs ih =>
      intro init c h
      simp only [List.foldl_cons]
      exact ih _ c (unionCols_mem_left _ _ _ h)
  have aux : ∀ (rs : List (List (String × Json))) (init : List String),
      ∀ r ∈ rs, ∀ k ∈ r.map Prod.fst,
        k ∈ rs.foldl (fun a r => unionCols a (r.map Prod.fst)) init := by
    intro rs
    induction rs with
    | nil => intro _ r hr; simp at hr
    | cons r0 rs ih =>
      intro init r hr k hk
      simp only [List.foldl_cons]
      rcases List.mem_cons.mp hr with rfl | hr
      · exact mono rs _ k (unionCols_mem_right _ _ _ hk)
      · exact ih _ r hr k hk
  exact aux rows []

/-- The row the post-processing (before renaming) derives from one flattened
record: drop the `qsa` bindings, append the expansion of the record's
`cnaes_secundarios` cell, drop the `cnaes_secundarios` bindings. -/
def filaPre (r : List (String × Json)) : List (String × Json) :=
  ((r.filter (fun kv => kv.1 != "qsa")) ++
    expandCell ((r.filter (fun kv => kv.1 != "qsa")).lookup "cnaes_secundarios")).filter
    (fun kv => kv.1 != "cnaes_secundarios")

/-- The final output row the pipeline derives from one identifier cell: its
record's flattened row post-processed and renamed.  Only the cell's own
record feeds this row. -/
def filaFinal (fetch : String → Except Unit Json) (cell : Option Json) :
    List (String × Json) :=
  (filaPre (filaDe fetch cell)).map (fun kv =>
    if digitStart kv.1 = true then (cnaePref ++ kv.1, kv.2) else kv)

/-- C6: the identifier order read from the `cnpj` column carries through the
whole pipeline: the output has exactly one row per identifier, and row `i` is
the per-record transform of identifier `i`'s fetched record — no
deduplication, no sorting, no reordering. -/
theorem ordem_preservada (input : Except Unit DataFrame)
    (fetch : String → Except Unit Json) (cells : List (Option Json)) (out : Csv)
    (hler : ler_csv input = .ok cells) (h : registrosObj fetch cells)
    (hout : executar input fetch = .ok out) :
    out.linhas = cells.map (filaFinal fetch) ∧
    out.linhas.length = cells.length := by
  obtain ⟨cnpjs, st, df, h1, h2, h3, hcsv⟩ := executar_ok_inv input fetch out hout
  have hcn : cnpjs = cells := by
    have := h1.symm.trans hler
    simpa using this
  rw [hcn] at h2
  by_cases hvac : cells = []
  · exfalso
    rw [hvac] at h2
    have hst0 : st = none := by
      have := (show processar_consultas fetch []
        = (.ok none : Except Err (Option DataFrame)) from rfl).symm.trans h2
      simpa using this.symm
    rw [hst0] at h3
    exact absurd h3 (by simp [normalizar_dados, normalizar_pre, Except.map])
  · have hproc := processar_obj fetch cells h hvac
    have hst : st = some ⟨colunasDe fetch cells, cells.map (filaDe fetch)⟩ := by
      have := h2.symm.trans hproc
      simpa using this
    obtain ⟨dfp, hpre, hdf⟩ := normalizar_dados_inv st df h3
    obtain ⟨df0, d1, col, hst2, hq, hg, hd3⟩ := normalizar_pre_inv st dfp hpre
    have hdf0 : df0 = ⟨colunasDe fetch cells, cells.map (filaDe fetch)⟩ := by
      have := hst2.symm.trans hst
      simpa using this
    obtain ⟨hq_c, hq_r, _⟩ := dropCol_inv _ _ _ hq
    obtain ⟨hcol, _⟩ := getCol_inv _ _ _ hg
    obtain ⟨hd3c, hd3r, _⟩ := dropCol_inv _ _ _ hd3
    have hrows0 : df0.rows = cells.map (filaDe fetch) := by rw [hdf0]
    have hcols0 : df0.columns = colunasDe fetch cells := by rw [hdf0]
    have hr1 : d1.rows = cells.map (fun cell =>
        (filaDe fetch cell).filter (fun kv => kv.1 != "qsa")) := by
      rw [hq_r, hrows0, List.map_map]
      rfl
    have hcolv : col = cells.map (fun cell =>
        ((filaDe fetch cell).filter (fun kv => kv.1 != "qsa")).lookup
          "cnaes_secundarios") := by
      rw [hcol, hr1, List.map_map]
      rfl
    have hexp : (normalize_series col).rows = cells.map (fun cell =>
        expandCell (((filaDe fetch cell).filter
          (fun kv => kv.1 != "qsa")).lookup "cnaes_secundarios")) := by
      show col.map expandCell = _
      rw [hcolv, List.map_map]
      rfl
    have hzip : (concatAxis1 d1 (normalize_series col)).rows =
        cells.map (fun cell =>
          ((filaDe fetch cell).filter (fun kv => kv.1 != "qsa")) ++
            expandCell (((filaDe fetch cell).filter
              (fun kv => kv.1 != "qsa")).lookup "cnaes_secundarios")) := by
      show List.zipWith (· ++ ·) d1.rows (normalize_series col).rows = _
      rw [hr1, hexp, zipWith_map_same]
    have hrowsp : dfp.rows = cells.map (fun cell => filaPre (filaDe fetch cell)) := by
      rw [hd3r, hzip, List.map_map]
      rfl
    have hwf : ∀ r ∈ dfp.rows, ∀ kv ∈ r, kv.1 ∈ dfp.columns := by
      intro r hr kv hkv
      rw [hrowsp] at hr
      obtain ⟨cell, hcell, hrc⟩ := List.mem_map.mp hr
      rw [← hrc] at hkv
      rw [hd3c]
      unfold filaPre at hkv
      have hkv1 := List.mem_filter.mp hkv
      apply List.mem_filter.mpr
      refine ⟨?_, hkv1.2⟩
      show kv.1 ∈ d1.columns ++ (normalize_series col).columns
      rcases List.mem_append.mp hkv1.1 with hl | hr2
      · apply List.mem_append_left
        have hl2 := List.mem_filter.mp hl
        rw [hq_c]
        apply List.mem_filter.mpr
        refine ⟨?_, hl2.2⟩
        rw [hcols0]
        exact colunasDe_key fetch cells cell hcell kv.1
          (List.mem_map_of_mem Prod.fst hl2.1)
      · apply List.mem_append_right
        have hrow_mem : expandCell (((filaDe fetch cell).filter
            (fun kv => kv.1 != "qsa")).lookup "cnaes_secundarios")
              ∈ col.map expandCell := by
          rw [hcolv, List.map_map]
          exact List.mem_map.mpr ⟨cell, hcell, rfl⟩
        exact mkDF_wf (col.map expandCell) _ hrow_mem kv.1
          (List.mem_map_of_mem Prod.fst hr2)
    have hfinal : df.rows = cells.map (filaFinal fetch) := by
      rw [hdf, renameDigits_rows dfp hwf, hrowsp, List.map_map]
      rfl
    constructor
    · rw [hcsv]
      exact hfinal
    · rw [hcsv]
      show df.rows.length = _
      rw [hfinal, List.length_map]

theorem ordem_preservada_aplicada :
    saidaCenario.linhas =
      [some (Json.str "11222333000181")].map (filaFinal servicoCenario) ∧
    saidaCenario.linhas.length = 1 :=
  ordem_preservada entradaCenario servicoCenario
    [some (Json.str "11222333000181")] saidaCenario rfl
    (by
      intro cell hc
      rcases List.mem_singleton.mp hc with rfl
      exact ⟨"11222333000181",
        [("qsa", Json.arr [Json.obj [("nome", Json.str "A")]]),
         ("cnaes_secundarios",
           Json.arr [Json.obj [("codigo", Json.num 123),
             ("descricao", Json.str "x")]]),
         ("razao_social", Json.str "ACME")], rfl, rfl⟩)
    rfl
